import Mathlib

/-!
Verification of `codebook_features/models.py`.

The tensor operations of the source are embedded shallowly: a tensor of
shape `(batch, positions, dim)` becomes a function
`Fin B → Fin P → (Fin d → ℚ)`, a codebook of shape `(num_codes, dim)`
becomes `Fin (N+1) → (Fin d → ℚ)` (PyTorch `argmax`/`argmin` error on an
empty code axis, so the number of codes is kept positive by the type), and
the float arithmetic of the source is idealized as exact rational (or, for
the softmax path which needs `exp`, real) arithmetic.
-/

namespace CodebookFeatures

/-- A feature vector of dimension `d` (one position of an activation tensor). -/
abbrev Vec (d : ℕ) := Fin d → ℚ

/-- Dot product of two feature vectors (`torch.matmul` on the last axis). -/
def dot {d : ℕ} (u v : Vec d) : ℚ := ∑ j, u j * v j

/-- Squared Euclidean distance between two feature vectors.  `torch.cdist`
with `p=2` computes the (non-squared) distance, but its `argmin` coincides
with the `argmin` of the square because `Real.sqrt` is monotone, so the
embedding works with squares to stay inside `ℚ`. -/
def sqDist {d : ℕ} (u v : Vec d) : ℚ := ∑ j, (u j - v j) ^ 2

/-- `torch.argmax` over a non-empty axis: index of the first occurrence of
the maximum value (first-occurrence tie-break). -/
def argmaxFin {n : ℕ} (f : Fin (n + 1) → ℚ) : Fin (n + 1) :=
  (List.finRange (n + 1)).foldl (fun b x => if f b < f x then x else b) 0

/-- `torch.argmin` over a non-empty axis: index of the first occurrence of
the minimum value (first-occurrence tie-break). -/
def argminFin {n : ℕ} (f : Fin (n + 1) → ℚ) : Fin (n + 1) :=
  (List.finRange (n + 1)).foldl (fun b x => if f x < f b then x else b) 0

lemma foldl_argmax_ge {n : ℕ} (f : Fin n → ℚ) (l : List (Fin n)) (b : Fin n) :
    f b ≤ f (l.foldl (fun b x => if f b < f x then x else b) b) ∧
      ∀ x ∈ l, f x ≤ f (l.foldl (fun b x => if f b < f x then x else b) b) := by
  induction l generalizing b with
  | nil => simp
  | cons a as ih =>
    simp only [List.foldl_cons, List.mem_cons]
    have hba : f b ≤ f (if f b < f a then a else b) ∧
        f a ≤ f (if f b < f a then a else b) := by
      by_cases h : f b < f a <;> simp [h, le_of_lt, le_of_not_lt]
    refine ⟨hba.1.trans (ih _).1, ?_⟩
    rintro x (rfl | hx)
    · exact hba.2.trans (ih _).1
    · exact (ih _).2 x hx

lemma foldl_argmin_le {n : ℕ} (f : Fin n → ℚ) (l : List (Fin n)) (b : Fin n) :
    f (l.foldl (fun b x => if f x < f b then x else b) b) ≤ f b ∧
      ∀ x ∈ l, f (l.foldl (fun b x => if f x < f b then x else b) b) ≤ f x := by
  induction l generalizing b with
  | nil => simp
  | cons a as ih =>
    simp only [List.foldl_cons, List.mem_cons]
    have hba : f (if f a < f b then a else b) ≤ f b ∧
        f (if f a < f b then a else b) ≤ f a := by
      by_cases h : f a < f b <;> simp [h, le_of_lt, le_of_not_lt]
    refine ⟨(ih _).1.trans hba.1, ?_⟩
    rintro x (rfl | hx)
    · exact (ih _).1.trans hba.2
    · exact (ih _).2 x hx

lemma le_argmaxFin {n : ℕ} (f : Fin (n + 1) → ℚ) (j : Fin (n + 1)) :
    f j ≤ f (argmaxFin f) :=
  (foldl_argmax_ge f (List.finRange (n + 1)) 0).2 j (List.mem_finRange j)

lemma argminFin_le {n : ℕ} (f : Fin (n + 1) → ℚ) (j : Fin (n + 1)) :
    f (argminFin f) ≤ f j :=
  (foldl_argmin_le f (List.finRange (n + 1)) 0).2 j (List.mem_finRange j)

/-- `InnerProductSnapFunction.forward`: scores are the dot products of each
position's input vector against every codebook row (`torch.matmul(inputs,
codebook.T)`), the selected id is the `argmax` of the scores, and the output
at each position is the selected codebook row (the embedding lookup
`torch.nn.functional.embedding(codebook_ids, codebook)`). -/
def InnerProductSnapFunction.forward {B P N d : ℕ}
    (inputs : Fin B → Fin P → Vec d) (codebook : Fin (N + 1) → Vec d) :
    (Fin B → Fin P → Vec d) × (Fin B → Fin P → Fin (N + 1)) :=
  let codebook_ids := fun b p => argmaxFin (fun c => dot (inputs b p) (codebook c))
  (fun b p => codebook (codebook_ids b p), codebook_ids)

/-- `EuclideanSnapFunction.forward`: scores are the Euclidean distances of
each position's input vector to every codebook row (`torch.cdist(inputs,
codebook, p=2)`), the selected id is the `argmin` of the scores, and the
output at each position is the selected codebook row.  The `argmin` is taken
over squared distances, which selects the same index as the source's
non-squared distances. -/
def EuclideanSnapFunction.forward {B P N d : ℕ}
    (inputs : Fin B → Fin P → Vec d) (codebook : Fin (N + 1) → Vec d) :
    (Fin B → Fin P → Vec d) × (Fin B → Fin P → Fin (N + 1)) :=
  let codebook_ids := fun b p => argminFin (fun c => sqDist (inputs b p) (codebook c))
  (fun b p => codebook (codebook_ids b p), codebook_ids)

/-- `BaseSnapFunction.backward`: the gradient w.r.t. the codebook is obtained
in the source by back-propagating `grad_outputs` through the embedding lookup
`output = embedding(codebook_ids, codebook)` (`torch.autograd.grad(output,
codebook, grad_outputs)`); the vector-Jacobian product of an embedding lookup
scatter-adds each position's output gradient onto the row that was selected
there. -/
def embeddingGrad {B P N d : ℕ} (codebook_ids : Fin B → Fin P → Fin (N + 1))
    (grad_outputs : Fin B → Fin P → Vec d) : Fin (N + 1) → Vec d :=
  fun c => ∑ b, ∑ p, if codebook_ids b p = c then grad_outputs b p else 0

/-- `BaseSnapFunction.backward` returns `(grad_outputs, grad_codebook)`: the
incoming output gradient passed through unchanged as the input gradient
(straight-through estimator), paired with the embedding-lookup gradient for
the codebook. -/
def BaseSnapFunction.backward {B P N d : ℕ}
    (codebook_ids : Fin B → Fin P → Fin (N + 1))
    (grad_outputs : Fin B → Fin P → Vec d) :
    (Fin B → Fin P → Vec d) × (Fin (N + 1) → Vec d) :=
  (grad_outputs, embeddingGrad codebook_ids grad_outputs)

/-- The mutable state of a `CodebookLayer`: the codebook embedding matrix
(`self.codebook.weight`) and the per-code selection counts (`self.counts`,
a `collections.Counter`).  A key is contained in the `Counter` exactly when
its count is non-zero, because the only mutation the layer ever performs is
`counts.update(...)`, which only increments; the `Counter` is therefore
embedded as the plain count function `ℕ → ℕ` with membership `counts i ≠ 0`. -/
structure CodebookLayer (N d : ℕ) where
  codebook : Fin (N + 1) → Vec d
  counts : ℕ → ℕ

/-- Multiplicity of code `c` in the flattened id tensor: the number of
`(batch, position)` pairs at which code `c` was selected.
`self.counts.update(codebook_ids.cpu().numpy().flat)` adds exactly this to
each key's count. -/
def selectionCount {B P N : ℕ} (codebook_ids : Fin B → Fin P → Fin (N + 1))
    (c : ℕ) : ℕ :=
  ∑ b, ∑ p, if (codebook_ids b p : ℕ) = c then 1 else 0

/-- The hard-mode branch of `CodebookLayer.forward` (`soft_snap == False`):
apply the layer's snap function (`self.snap_fn.apply(x,
self.codebook.weight)`) and accumulate the selected ids into the counter.
`snap_fn` is the layer's snap function, one of the two
`BaseSnapFunction.forward` implementations above. -/
def CodebookLayer.forwardHard {B P N d : ℕ}
    (snap_fn : (Fin B → Fin P → Vec d) → (Fin (N + 1) → Vec d) →
      (Fin B → Fin P → Vec d) × (Fin B → Fin P → Fin (N + 1)))
    (layer : CodebookLayer N d) (x : Fin B → Fin P → Vec d) :
    (Fin B → Fin P → Vec d) × CodebookLayer N d :=
  let res := snap_fn x layer.codebook
  (res.1, { layer with counts := fun c => layer.counts c + selectionCount res.2 c })

/-- The set of underused codes computed by `CodebookLayer.expire_codes`:
`i not in self.counts or self.counts[i] < threshold`, with `Counter`
membership embedded as `counts i ≠ 0` (see `CodebookLayer`). -/
def underusedCodes (N : ℕ) (counts : ℕ → ℕ) (threshold : ℤ) :
    Finset (Fin (N + 1)) :=
  Finset.univ.filter (fun i => counts (i : ℕ) = 0 ∨ ((counts (i : ℕ) : ℤ) < threshold))

/-- `CodebookLayer.expire_codes`: every underused code's row is overwritten
with the normalized-`torch.rand`-weighted combination of all current rows
(`new_codes = einsum("uc,cd->ud", weights / weights.sum(1), weight)`); other
rows are untouched.  `rand` stands for the `torch.rand` draw; its rows are
i.i.d., so indexing them by the underused code itself instead of by the
code's position in `list(underused_codes)` is a bijective renaming of the
random input.  When the underused set is empty, the source's indexed
assignment with the empty (float-dtype) `torch.tensor([])` raises an
`IndexError` that is caught by the surrounding `try/except`, so the net
effect is no change, which the `if` branch models. -/
def CodebookLayer.expire_codes {N d : ℕ} (layer : CodebookLayer N d)
    (rand : Fin (N + 1) → Fin (N + 1) → ℚ) (threshold : ℤ) :
    CodebookLayer N d :=
  let underused := underusedCodes N layer.counts threshold
  if underused = ∅ then layer
  else
    { layer with
      codebook := fun i =>
        if i ∈ underused then
          fun j => ∑ c, (rand i c / ∑ c', rand i c') * layer.codebook c j
        else layer.codebook i }

/-! Soft mode needs `softmax`, hence `exp`, so the soft-mode branch is
embedded over `ℝ`. -/

/-- A real-valued feature vector, for the softmax path. -/
abbrev RVec (d : ℕ) := Fin d → ℝ

/-- Dot product over `ℝ`. -/
def dotR {d : ℕ} (u v : RVec d) : ℝ := ∑ j, u j * v j

/-- `torch.nn.functional.softmax` along the code axis. -/
noncomputable def softmaxW {n : ℕ} (logits : Fin (n + 1) → ℝ) (c : Fin (n + 1)) : ℝ :=
  Real.exp (logits c) / ∑ c', Real.exp (logits c')

/-- Real-valued layer state for the soft-mode branch (same fields as
`CodebookLayer`). -/
structure RCodebookLayer (N d : ℕ) where
  codebook : Fin (N + 1) → RVec d
  counts : ℕ → ℕ

/-- The soft-mode branch of `CodebookLayer.forward` (`soft_snap == True`):
`logits = matmul(x, weight.T)`, `codebook_weights = softmax(logits, -1)`,
`output = (codebook_weights.unsqueeze(-1) * weight.unsqueeze(0)).sum(-2)`,
i.e. coordinate-wise `∑ c, weight_c · row_c`.  This branch performs no
counter update, so the layer state is returned unchanged. -/
noncomputable def CodebookLayer.forwardSoft {B P N d : ℕ}
    (layer : RCodebookLayer N d) (x : Fin B → Fin P → RVec d) :
    (Fin B → Fin P → RVec d) × RCodebookLayer N d :=
  (fun b p j =>
      ∑ c, softmaxW (fun c' => dotR (x b p) (layer.codebook c')) c * layer.codebook c j,
   layer)

/-- The output tuple of a wrapped transformer layer: element 0 (the
activation tensor) plus the remaining auxiliary elements. -/
structure LayerOutput (α β : Type) where
  fst : α
  rest : List β

/-- `TransformerLayerWrapper.forward`: call the wrapped layer; when
`self.snap` is set, rebuild the tuple as
`(snapped_output, *layer_outputs[1:])`, otherwise return the layer's output
unmodified. -/
def TransformerLayerWrapper.forward {α β γ : Type} (snap : Bool)
    (codebook_layer : α → α) (transformer_layer : γ → LayerOutput α β)
    (args : γ) : LayerOutput α β :=
  let layer_outputs := transformer_layer args
  if snap then ⟨codebook_layer layer_outputs.fst, layer_outputs.rest⟩
  else layer_outputs

/-- Running the unwrapped backbone: each layer consumes the previous layer's
element-0 activation. -/
def runBackbone {α β : Type} (layers : List (α → LayerOutput α β)) (x : α) : α :=
  layers.foldl (fun a f => (f a).fst) x

/-- Running the backbone with every layer wrapped; each entry carries the
wrapper's `snap` flag, its codebook layer and the original layer. -/
def runWrapped {α β : Type}
    (layers : List (Bool × (α → α) × (α → LayerOutput α β))) (x : α) : α :=
  layers.foldl
    (fun a l => (TransformerLayerWrapper.forward l.1 l.2.1 l.2.2 a).fst) x

/-- The two exceptions `CodebookModel.__init__` can raise: the
`assert` in the index loop, and the `ValueError` for a bad metric. -/
inductive InitError
  | assertionError
  | valueError
deriving DecidableEq

/-- Normalization of one entry of `layers_to_snap`:
`if self.layers_to_snap[i] < 0: self.layers_to_snap[i] += self.num_layers()`. -/
def normIdx (numLayers : ℕ) (v : ℤ) : ℤ := if v < 0 then v + numLayers else v

/-- The validation/normalization loop of `CodebookModel.__init__`:
`for i in range(len(self.layers_to_snap)): assert -num_layers <= i and
i < num_layers; ...`.  Note the source's `assert` tests the loop index `i`,
not the list entry `self.layers_to_snap[i]`. -/
def normalizeLoop (numLayers : ℕ) : ℕ → List ℤ → Except InitError (List ℤ)
  | _, [] => .ok []
  | i, v :: vs =>
    if -(numLayers : ℤ) ≤ (i : ℤ) ∧ (i : ℤ) < (numLayers : ℤ) then
      match normalizeLoop numLayers (i + 1) vs with
      | .ok vs' => .ok (normIdx numLayers v :: vs')
      | .error e => .error e
    else .error .assertionError

/-- The configuration `CodebookModel.__init__` produces on success: the
normalized sorted `layers_to_snap` and which snap function was chosen. -/
structure CBMConfig where
  layers_to_snap : List ℤ
  metricIsEuclidean : Bool
deriving DecidableEq

/-- `CodebookModel.__init__`, as a state transition on the backbone's
parameter `requires_grad` flags (`paramGrads`): run the index loop, sort
(`sorted(...)`, embedded as insertion sort — same sorted result), call
`freeze_model_params` (every flag set to `False`), then check
`similarity_metric`, raising `ValueError` for anything other than
`"euclidean"` or `"inner_product"`.  The returned flag list is the state of
the caller's backbone parameters after the call, whether or not it raised. -/
def CodebookModel.init (similarity_metric : String) (layersArg : List ℤ)
    (numLayers : ℕ) (paramGrads : List Bool) :
    Except InitError CBMConfig × List Bool :=
  match normalizeLoop numLayers 0 layersArg with
  | .error e => (.error e, paramGrads)
  | .ok normalized =>
    let sortedLayers := normalized.insertionSort (· ≤ ·)
    let frozen := paramGrads.map (fun _ => false)
    if similarity_metric = "euclidean" then (.ok ⟨sortedLayers, true⟩, frozen)
    else if similarity_metric = "inner_product" then (.ok ⟨sortedLayers, false⟩, frozen)
    else (.error .valueError, frozen)

/-! ## Theorems -/

/-- C5: the Euclidean snap function selects per position a codebook row of
minimal Euclidean distance to the input vector (stated with squared
distances, which order identically), the inner-product snap function selects
a row of maximal dot product, the output at each position equals the
selected codebook row, and every returned index lies in `[0, num_codes)`. -/
theorem snap_forward_selects_nearest {B P N d : ℕ}
    (inputs : Fin B → Fin P → Vec d) (codebook : Fin (N + 1) → Vec d)
    (b : Fin B) (p : Fin P) :
    (EuclideanSnapFunction.forward inputs codebook).1 b p =
        codebook ((EuclideanSnapFunction.forward inputs codebook).2 b p) ∧
      (∀ c, sqDist (inputs b p)
            (codebook ((EuclideanSnapFunction.forward inputs codebook).2 b p)) ≤
          sqDist (inputs b p) (codebook c)) ∧
      ((EuclideanSnapFunction.forward inputs codebook).2 b p : ℕ) < N + 1 ∧
      (InnerProductSnapFunction.forward inputs codebook).1 b p =
        codebook ((InnerProductSnapFunction.forward inputs codebook).2 b p) ∧
      (∀ c, dot (inputs b p) (codebook c) ≤
          dot (inputs b p)
            (codebook ((InnerProductSnapFunction.forward inputs codebook).2 b p))) ∧
      ((InnerProductSnapFunction.forward inputs codebook).2 b p : ℕ) < N + 1 :=
  ⟨rfl, fun c => argminFin_le (fun c' => sqDist (inputs b p) (codebook c')) c,
    Fin.isLt _, rfl,
    fun c => le_argmaxFin (fun c' => dot (inputs b p) (codebook c')) c,
    Fin.isLt _⟩

/-- C4: the snap backward pass returns the incoming output gradient,
unchanged, as the gradient with respect to the inputs, and this input
gradient does not depend on which codebook ids were selected. -/
theorem backward_straight_through {B P N d : ℕ}
    (codebook_ids : Fin B → Fin P → Fin (N + 1))
    (grad_outputs : Fin B → Fin P → Vec d) :
    (BaseSnapFunction.backward codebook_ids grad_outputs).1 = grad_outputs ∧
      ∀ other_ids : Fin B → Fin P → Fin (N + 1),
        (BaseSnapFunction.backward other_ids grad_outputs).1 =
          (BaseSnapFunction.backward codebook_ids grad_outputs).1 :=
  ⟨rfl, fun _ => rfl⟩

/-- C8: with `snap` false the wrapper returns the wrapped layer's output
tuple entirely unmodified (so the composed model with all snapping disabled
equals the unwrapped backbone); with `snap` true only element 0 is replaced,
the remaining elements are forwarded unchanged, and the tuple's arity is
preserved. -/
theorem wrapper_passthrough {α β γ : Type} (codebook_layer : α → α)
    (transformer_layer : γ → LayerOutput α β) (args : γ)
    (wrapped : List ((α → α) × (α → LayerOutput α β))) (a : α) :
    TransformerLayerWrapper.forward false codebook_layer transformer_layer args =
        transformer_layer args ∧
      (TransformerLayerWrapper.forward true codebook_layer transformer_layer
            args).fst =
        codebook_layer (transformer_layer args).fst ∧
      (TransformerLayerWrapper.forward true codebook_layer transformer_layer
            args).rest =
        (transformer_layer args).rest ∧
      (TransformerLayerWrapper.forward true codebook_layer transformer_layer
            args).rest.length =
        (transformer_layer args).rest.length ∧
      runWrapped (wrapped.map fun l => (false, l.1, l.2)) a =
        runBackbone (wrapped.map fun l => l.2) a := by
  refine ⟨rfl, rfl, rfl, rfl, ?_⟩
  induction wrapped generalizing a with
  | nil => rfl
  | cons l ls ih =>
    simpa [runWrapped, runBackbone, TransformerLayerWrapper.forward] using
      ih ((l.2 a).fst)

/-- C10: `expire_codes` never modifies the usage counter, so the underused
set recomputed after a call (with the same threshold and no intervening
forward pass) is exactly the set the call selected and overwrote. -/
theorem expire_codes_preserves_counts {N d : ℕ} (layer : CodebookLayer N d)
    (rand : Fin (N + 1) → Fin (N + 1) → ℚ) (threshold : ℤ) :
    (layer.expire_codes rand threshold).counts = layer.counts ∧
      underusedCodes N (layer.expire_codes rand threshold).counts threshold =
        underusedCodes N layer.counts threshold := by
  have h : (layer.expire_codes rand threshold).counts = layer.counts := by
    by_cases he : underusedCodes N layer.counts threshold = ∅ <;>
      simp [CodebookLayer.expire_codes, he]
  exact ⟨h, by rw [h]⟩

/-- C1 (code bug): the validation loop of `CodebookModel.__init__` asserts a
bound on the loop index `i` instead of on the layer index
`self.layers_to_snap[i]`, so the out-of-range layer index `100` on a
6-layer backbone is accepted without any error and kept in
`layers_to_snap`, contradicting the intended immediate configuration
error. -/
theorem init_accepts_out_of_range_layer :
    6 ≤ (100 : ℤ) ∧
      CodebookModel.init "euclidean" [100] 6 [] = (.ok ⟨[100], true⟩, []) :=
  ⟨by norm_num, rfl⟩

lemma normalizeLoop_ok_eq_map (numLayers : ℕ) (xs : List ℤ) :
    ∀ (i : ℕ) (ys : List ℤ), normalizeLoop numLayers i xs = .ok ys →
      ys = xs.map (normIdx numLayers) := by
  induction xs with
  | nil =>
    intro i ys h
    simp only [normalizeLoop, Except.ok.injEq] at h
    simp [← h]
  | cons v vs ih =>
    intro i ys h
    simp only [normalizeLoop] at h
    split_ifs at h
    cases hv : normalizeLoop numLayers (i + 1) vs with
    | error e => rw [hv] at h; exact absurd h (by simp)
    | ok vs' =>
      rw [hv] at h
      simp only [Except.ok.injEq] at h
      rw [← h, List.map_cons, ih (i + 1) vs' hv]

/-- C2 (amended): on a successful construction, every negative layer index
has been normalized by adding `num_layers` and the resulting
`layers_to_snap` is sorted ascending — but it is only a permutation of the
normalized input, not deduplicated; in particular `[-1, -2]` on a 6-layer
backbone yields exactly `[4, 5]`. -/
theorem init_normalizes_and_sorts (metric : String) (layersArg : List ℤ)
    (numLayers : ℕ) (flags flags' : List Bool) (cfg : CBMConfig)
    (h : CodebookModel.init metric layersArg numLayers flags =
      (.ok cfg, flags')) :
    cfg.layers_to_snap.Sorted (· ≤ ·) ∧
      cfg.layers_to_snap.Perm (layersArg.map (normIdx numLayers)) ∧
      (CodebookModel.init "euclidean" [-1, -2] 6 []).1 = .ok ⟨[4, 5], true⟩ := by
  have hmain : cfg.layers_to_snap =
      (layersArg.map (normIdx numLayers)).insertionSort (· ≤ ·) := by
    unfold CodebookModel.init at h
    cases hn : normalizeLoop numLayers 0 layersArg with
    | error e => rw [hn] at h; exact absurd h (by simp)
    | ok normalized =>
      rw [hn] at h
      rw [← normalizeLoop_ok_eq_map numLayers layersArg 0 normalized hn]
      split_ifs at h
      · simp only [Prod.mk.injEq, Except.ok.injEq] at h
        rw [← h.1]
      · simp only [Prod.mk.injEq, Except.ok.injEq] at h
        rw [← h.1]
      · simp at h
  refine ⟨?_, ?_, rfl⟩
  · rw [hmain]; exact List.sorted_insertionSort _ _
  · rw [hmain]; exact List.perm_insertionSort _ _

/-- C2 counterexample: the layer indices `[4, -2]` on a 6-layer backbone
both normalize to `4`, yet the constructed `layers_to_snap` is `[4, 4]`:
sorted, but the duplicate entries are not collapsed. -/
theorem init_does_not_dedup :
    (CodebookModel.init "euclidean" [4, -2] 6 []).1 = .ok ⟨[4, 4], true⟩ ∧
      ¬ ([4, 4] : List ℤ).Nodup :=
  ⟨rfl, by decide⟩

/-- Witness for `init_normalizes_and_sorts` at the spec's own example. -/
theorem init_normalizes_and_sorts_witness :
    CodebookModel.init "euclidean" [-1, -2] 6 [] = (.ok ⟨[4, 5], true⟩, []) ∧
      (([4, 5] : List ℤ).Sorted (· ≤ ·) ∧
        ([4, 5] : List ℤ).Perm ([-1, -2].map (normIdx 6)) ∧
        (CodebookModel.init "euclidean" [-1, -2] 6 []).1 = .ok ⟨[4, 5], true⟩) :=
  ⟨rfl, init_normalizes_and_sorts "euclidean" [-1, -2] 6 [] [] ⟨[4, 5], true⟩ rfl⟩

/-- C9: when `CodebookModel.__init__` raises the `ValueError` for an
unrecognized similarity metric, `freeze_model_params` has already run, so
the caller's backbone leaves the failed construction with every parameter's
`requires_grad` flag set to `False`, whatever the flags were before. -/
theorem init_error_leaves_params_frozen (metric : String) (layersArg : List ℤ)
    (numLayers : ℕ) (flags : List Bool) (normalized : List ℤ)
    (hok : normalizeLoop numLayers 0 layersArg = .ok normalized)
    (h1 : metric ≠ "euclidean") (h2 : metric ≠ "inner_product") :
    CodebookModel.init metric layersArg numLayers flags =
      (.error .valueError, flags.map fun _ => false) := by
  simp [CodebookModel.init, hok, h1, h2]

/-- Witness for `init_error_leaves_params_frozen` with metric `"cosine"`. -/
theorem init_error_leaves_params_frozen_witness :
    normalizeLoop 2 0 [0] = .ok [0] ∧ "cosine" ≠ "euclidean" ∧
      "cosine" ≠ "inner_product" ∧
      CodebookModel.init "cosine" [0] 2 [true, true] =
        (.error .valueError, [false, false]) :=
  ⟨rfl, by decide, by decide,
    init_error_leaves_params_frozen "cosine" [0] 2 [true, true] [0] rfl
      (by decide) (by decide)⟩

/-- Shared helper: neither branch of `expire_codes` touches the counter. -/
lemma expire_codes_counts_eq {N d : ℕ} (layer : CodebookLayer N d)
    (rand : Fin (N + 1) → Fin (N + 1) → ℚ) (threshold : ℤ) :
    (layer.expire_codes rand threshold).counts = layer.counts := by
  by_cases he : underusedCodes N layer.counts threshold = ∅ <;>
    simp [CodebookLayer.expire_codes, he]

/-- A sequence of hard-mode forward calls, threading the layer state. -/
def CodebookLayer.runHard {B P N d : ℕ}
    (snap_fn : (Fin B → Fin P → Vec d) → (Fin (N + 1) → Vec d) →
      (Fin B → Fin P → Vec d) × (Fin B → Fin P → Fin (N + 1)))
    (layer : CodebookLayer N d) (xs : List (Fin B → Fin P → Vec d)) :
    CodebookLayer N d :=
  xs.foldl (fun l x => (CodebookLayer.forwardHard snap_fn l x).2) layer

lemma runHard_codebook_counts {B P N d : ℕ}
    (snap_fn : (Fin B → Fin P → Vec d) → (Fin (N + 1) → Vec d) →
      (Fin B → Fin P → Vec d) × (Fin B → Fin P → Fin (N + 1)))
    (xs : List (Fin B → Fin P → Vec d)) :
    ∀ layer : CodebookLayer N d,
      (CodebookLayer.runHard snap_fn layer xs).codebook = layer.codebook ∧
        ∀ c, (CodebookLayer.runHard snap_fn layer xs).counts c =
          layer.counts c +
            (xs.map fun x => selectionCount (snap_fn x layer.codebook).2 c).sum := by
  induction xs with
  | nil => intro layer; simp [CodebookLayer.runHard]
  | cons x xs ih =>
    intro layer
    have hrw : CodebookLayer.runHard snap_fn layer (x :: xs) =
        CodebookLayer.runHard snap_fn
          (CodebookLayer.forwardHard snap_fn layer x).2 xs := rfl
    obtain ⟨hcb, hct⟩ := ih (CodebookLayer.forwardHard snap_fn layer x).2
    constructor
    · rw [hrw, hcb]; rfl
    · intro c
      rw [hrw, hct c]
      simp only [CodebookLayer.forwardHard, List.map_cons, List.sum_cons]
      omega

/-- C6: after any sequence of hard-mode forward calls, each code's usage
count equals its initial count plus the exact number of positions at which
the code was selected across the whole sequence (the codebook itself is
unchanged by these calls, so every call selects against the same codebook);
a soft-mode forward call leaves the counter untouched, and `expire_codes`
never resets it. -/
theorem counts_accumulate_exactly {B P N d : ℕ}
    (snap_fn : (Fin B → Fin P → Vec d) → (Fin (N + 1) → Vec d) →
      (Fin B → Fin P → Vec d) × (Fin B → Fin P → Fin (N + 1)))
    (layer : CodebookLayer N d) (xs : List (Fin B → Fin P → Vec d)) (c : ℕ) :
    (CodebookLayer.runHard snap_fn layer xs).counts c =
        layer.counts c +
          (xs.map fun x => selectionCount (snap_fn x layer.codebook).2 c).sum ∧
      (CodebookLayer.runHard snap_fn layer xs).codebook = layer.codebook ∧
      (∀ (rl : RCodebookLayer N d) (x : Fin B → Fin P → RVec d),
        (CodebookLayer.forwardSoft rl x).2.counts = rl.counts) ∧
      ∀ rand threshold,
        (layer.expire_codes rand threshold).counts = layer.counts :=
  ⟨(runHard_codebook_counts snap_fn xs layer).2 c,
    (runHard_codebook_counts snap_fn xs layer).1,
    fun _ _ => rfl,
    fun rand threshold => expire_codes_counts_eq layer rand threshold⟩

/-- The soft-mode output as the spec words it: per position the weighted
sum of all codebook rows, weighted by the softmax over the code axis of the
dot-product scores of the input vector against each codebook row. -/
noncomputable def softOutputSpec {B P N d : ℕ} (layer : RCodebookLayer N d)
    (x : Fin B → Fin P → RVec d) : Fin B → Fin P → RVec d :=
  fun b p => ∑ c, softmaxW (fun c' => dotR (x b p) (layer.codebook c')) c •
    layer.codebook c

/-- C7: the soft-mode output equals, per position, the softmax-weighted sum
of all codebook rows, the weights sum to 1 per position, and the usage
counter is not updated by a soft-mode forward call. -/
theorem forwardSoft_is_softmax_average {B P N d : ℕ}
    (layer : RCodebookLayer N d) (x : Fin B → Fin P → RVec d) :
    (CodebookLayer.forwardSoft layer x).1 = softOutputSpec layer x ∧
      (∀ (b : Fin B) (p : Fin P),
        ∑ c, softmaxW (fun c' => dotR (x b p) (layer.codebook c')) c = 1) ∧
      (CodebookLayer.forwardSoft layer x).2.counts = layer.counts := by
  refine ⟨?_, ?_, rfl⟩
  · funext b p j
    simp [CodebookLayer.forwardSoft, softOutputSpec, Finset.sum_apply]
  · intro b p
    have hpos : 0 < ∑ c', Real.exp (dotR (x b p) (layer.codebook c')) :=
      Finset.sum_pos (fun i _ => Real.exp_pos _) ⟨0, Finset.mem_univ 0⟩
    simp only [softmaxW]
    rw [← Finset.sum_div, div_self hpos.ne']

/-- The amended expiration contract of `expire_codes` with threshold `T`:
(1) every code whose count is below `T` *or whose count is zero* (i.e. a
code with no recorded uses, underused regardless of `T`) is overwritten by
a convex combination — non-negative weights summing to 1 — of the
pre-expiration codebook rows; (2) every code with a non-zero count that is
at least `T` is unchanged; (3) when no code is underused the call changes
nothing. -/
def ExpireSpec {N d : ℕ} (layer : CodebookLayer N d)
    (rand : Fin (N + 1) → Fin (N + 1) → ℚ) (threshold : ℤ) : Prop :=
  (∀ i : Fin (N + 1),
      (layer.counts (i : ℕ) = 0 ∨ ((layer.counts (i : ℕ) : ℤ) < threshold)) →
      ∃ w : Fin (N + 1) → ℚ, (∀ c, 0 ≤ w c) ∧ (∑ c, w c) = 1 ∧
        (layer.expire_codes rand threshold).codebook i =
          fun j => ∑ c, w c * layer.codebook c j) ∧
  (∀ i : Fin (N + 1), layer.counts (i : ℕ) ≠ 0 →
      threshold ≤ (layer.counts (i : ℕ) : ℤ) →
      (layer.expire_codes rand threshold).codebook i = layer.codebook i) ∧
  (underusedCodes N layer.counts threshold = ∅ →
      layer.expire_codes rand threshold = layer)

/-- C3 (amended): `expire_codes` satisfies `ExpireSpec` — underused codes
(count below threshold, or no recorded uses at all) are overwritten by
convex combinations of the pre-expiration codebook, codes with a recorded
count at or above the threshold are untouched, and an empty underused set
is a silent no-op — provided the `torch.rand` draw is non-negative with
positive row sums (it is, with probability 1). -/
theorem expire_codes_convex {N d : ℕ} (layer : CodebookLayer N d)
    (rand : Fin (N + 1) → Fin (N + 1) → ℚ) (threshold : ℤ)
    (hnn : ∀ i c, 0 ≤ rand i c) (hpos : ∀ i, 0 < ∑ c, rand i c) :
    ExpireSpec layer rand threshold := by
  refine ⟨?_, ?_, ?_⟩
  · intro i hi
    have hmem : i ∈ underusedCodes N layer.counts threshold := by
      simp [underusedCodes, hi]
    have hne : underusedCodes N layer.counts threshold ≠ ∅ :=
      Finset.ne_empty_of_mem hmem
    refine ⟨fun c => rand i c / ∑ c', rand i c',
      fun c => div_nonneg (hnn i c) (le_of_lt (hpos i)), ?_, ?_⟩
    · rw [← Finset.sum_div, div_self (ne_of_gt (hpos i))]
    · simp [CodebookLayer.expire_codes, hne, hmem]
  · intro i h0 hT
    have hnotmem : i ∉ underusedCodes N layer.counts threshold := by
      simp [underusedCodes, h0]
      exact hT
    by_cases he : underusedCodes N layer.counts threshold = ∅
    · simp [CodebookLayer.expire_codes, he]
    · simp [CodebookLayer.expire_codes, he, hnotmem]
  · intro he
    simp [CodebookLayer.expire_codes, he]

/-- Counterexample state for C3: two codes of dimension 1, rows `0` and
`1`, and an empty usage record. -/
def cexLayer : CodebookLayer 1 1 :=
  ⟨fun i => fun _ => if i = 0 then 0 else 1, fun _ => 0⟩

/-- A concrete stand-in for the `torch.rand` draw. -/
def cexRand : Fin 2 → Fin 2 → ℚ := fun _ _ => 1

/-- C3 counterexample: with `threshold = 0`, code 0 of `cexLayer` has count
`0 ≥ 0`, so the claim requires it to stay byte-identical; but `expire_codes`
treats every code with no recorded uses as underused regardless of the
threshold and overwrites row 0 (with `(0 + 1)/2 = 1/2 ≠ 0`). -/
theorem expire_codes_claim_counterexample :
    ¬ ((cexLayer.counts 0 : ℤ) < 0) ∧
      (cexLayer.expire_codes cexRand 0).codebook 0 0 ≠ cexLayer.codebook 0 0 := by
  have hne : ¬ (underusedCodes 1 (fun _ : ℕ => 0) 0 = ∅) := by decide
  have hmem : (0 : Fin 2) ∈ underusedCodes 1 (fun _ : ℕ => 0) 0 := by decide
  have hval : (cexLayer.expire_codes cexRand 0).codebook 0 0 = 1 / 2 := by
    simp [CodebookLayer.expire_codes, hne, hmem, cexRand, cexLayer,
      Fin.sum_univ_two]
  refine ⟨by decide, ?_⟩
  rw [hval]
  norm_num [cexLayer]

/-- Witness for `expire_codes_convex` at a concrete layer and draw. -/
theorem expire_codes_convex_witness :
    (∀ i c, (0 : ℚ) ≤ cexRand i c) ∧ (∀ i, (0 : ℚ) < ∑ c, cexRand i c) ∧
      ExpireSpec cexLayer cexRand 1 :=
  ⟨fun i c => by norm_num [cexRand],
    fun i => by norm_num [cexRand, Fin.sum_univ_two],
    expire_codes_convex cexLayer cexRand 1 (fun i c => by norm_num [cexRand])
      (fun i => by norm_num [cexRand, Fin.sum_univ_two])⟩

end CodebookFeatures
